import Mathlib

/-!
Verification of the richie course-search availability model.

The search core (availability classifier, rank-key builder, representative
selector, facet aggregator) is exercised by `tests/apps/search/test_query_courses.py`;
its fixtures (`COURSE_RUNS`, `COURSES`, `get_expected_courses`) and expected
responses are embedded below, together with a model of the engine built from
the specification and pinned to the tests' expected outputs.
All instants are integers (days relative to the fixed reference instant `0`,
matching the fixtures' `arrow.utcnow().shift(days=…)` offsets).
-/

namespace Richie

/-- The three timing states of a course run relative to an instant. -/
inductive TimingState
  | coming_soon
  | ongoing
  | archived
  deriving DecidableEq, Repr

/-- The three run languages occurring in the fixtures ("de" < "en" < "fr"
in the ascending string order used for facet tie-breaking). -/
inductive Lang
  | de
  | en
  | fr
  deriving DecidableEq, Repr

/-- Numeric rendering of the ascending string order on language codes. -/
def Lang.val : Lang → Nat
  | .de => 0
  | .en => 1
  | .fr => 2

/-- The four values of the `availability` filter dimension. -/
inductive Availability
  | «open»
  | coming_soon
  | ongoing
  | archived
  deriving DecidableEq, Repr

/-- A course run: execution window, enrollment window, languages
(spec §3; timestamps are instants in days relative to the reference). -/
structure CourseRun where
  start : Int
  «end» : Int
  enrollment_start : Int
  enrollment_end : Int
  languages : List Lang
  deriving DecidableEq, Repr

/-- The eight fixture course runs of
`tests/apps/search/test_query_courses.py` (`COURSE_RUNS`), identified by
their letters A–H. -/
inductive RunId
  | A
  | B
  | C
  | D
  | E
  | F
  | G
  | H
  deriving DecidableEq, Repr, Fintype

/-- The fixture data of `COURSE_RUNS`: day offsets from now for
start / end / enrollment_start / enrollment_end, and languages. -/
def runOf : RunId → CourseRun
  | .A => ⟨-5, 120, -15, 5, [.fr]⟩
  | .B => ⟨-15, 105, -30, 15, [.en]⟩
  | .C => ⟨15, 150, -30, 30, [.en]⟩
  | .D => ⟨45, 120, 30, 60, [.fr, .de]⟩
  | .E => ⟨-90, 15, -120, -30, [.en]⟩
  | .F => ⟨-75, 30, -100, -45, [.fr]⟩
  | .G => ⟨-80, -15, -100, -60, [.en]⟩
  | .H => ⟨-120, -30, -150, -90, [.en, .de]⟩

/-- The eight fixture run identifiers in their declaration order
(`list(COURSE_RUNS)` in the test module). -/
def allRunIds : List RunId := [.A, .B, .C, .D, .E, .F, .G, .H]

/-- Modelled from the spec: availability classifier, timing-state half
(spec §4.1; the classifier implementation is not among the sources).
`coming_soon` if `now < start`, `ongoing` if `start ≤ now ≤ end`,
`archived` if `now > end`, all boundaries inclusive. -/
def timing_state (now : Int) (r : CourseRun) : TimingState :=
  if now < r.start then .coming_soon
  else if now ≤ r.«end» then .ongoing
  else .archived

/-- Modelled from the spec: availability classifier, enrollment-open half
(spec §4.1): `enrollment_start ≤ now ≤ enrollment_end`, inclusive. -/
def enrollment_open (now : Int) (r : CourseRun) : Bool :=
  decide (r.enrollment_start ≤ now) && decide (now ≤ r.enrollment_end)

/-- Modelled from the spec: the full classifier
`classify(now, run) -> (timing_state, enrollment_open)` (spec §4.1). -/
def classify (now : Int) (r : CourseRun) : TimingState × Bool :=
  (timing_state now r, enrollment_open now r)

/-- Modelled from the spec: the four-priority rank key of a run
(spec §4.2): priority 1 = ongoing and open (ascending `enrollment_end`),
2 = coming soon (ascending `start`), 3 = ongoing and closed (descending
`enrollment_end`), 4 = archived (descending `end`); descending tiebreaks
are negated so keys compare by one ascending lexicographic comparison. -/
def rank_key (now : Int) (r : CourseRun) : Nat × Int :=
  match timing_state now r, enrollment_open now r with
  | .ongoing, true => (1, r.enrollment_end)
  | .coming_soon, _ => (2, r.start)
  | .ongoing, false => (3, -r.enrollment_end)
  | .archived, _ => (4, -r.«end»)

/-- Ascending lexicographic comparison of rank keys. -/
def keyLe (a b : Nat × Int) : Bool :=
  decide (a.1 < b.1) || (decide (a.1 = b.1) && decide (a.2 ≤ b.2))

/-- Strict lexicographic comparison of rank keys. -/
def keyLt (a b : Nat × Int) : Bool :=
  keyLe a b && !(keyLe b a)

/-- Modelled from the spec: whether one run satisfies one `availability`
filter value (spec §4.4): `open` ⇔ enrollment is open regardless of timing
state; the other three ⇔ the corresponding timing state. -/
def runMatchesAvail (now : Int) (r : CourseRun) : Availability → Bool
  | .«open» => enrollment_open now r
  | .coming_soon => decide (timing_state now r = .coming_soon)
  | .ongoing => decide (timing_state now r = .ongoing)
  | .archived => decide (timing_state now r = .archived)

/-- A course as indexed: `is_new` flag, categories, organizations and its
course runs (spec §3; `title`, `cover_image`, `absolute_url` carry no
search logic and are omitted). -/
structure Course where
  is_new : Bool
  categories : List Nat
  organizations : List Nat
  runs : List CourseRun
  deriving DecidableEq, Repr

/-- The `COURSES` fixture of the test module: `is_new`, categories and
organizations of the four indexed courses. -/
def courseAttrs : Nat → Bool × List Nat × List Nat
  | 0 => (true, [1, 3, 5], [11, 13, 15])
  | 1 => (true, [2, 3], [12, 13])
  | 2 => (false, [1, 4, 5], [11, 14, 15])
  | 3 => (false, [2, 4], [12, 14])
  | _ => (false, [], [])

/-- `courses_definition` of `execute_query`: course `i` owns the two runs
at positions `2*i, 2*i+1` of the shuffled suite. -/
def coursesDefinition (suite : List RunId) : List (Nat × List RunId) :=
  (List.range 4).map (fun i => (i, (suite.drop (2 * i)).take 2))

/-- Runs are indexed sorted by decreasing end date (`execute_query` sorts
by `now - o.end` ascending; spec §3 invariant). -/
def EndDescRel (a b : CourseRun) : Prop := b.«end» ≤ a.«end»

instance : DecidableRel EndDescRel := fun _ _ => inferInstanceAs (Decidable (_ ≤ _))

/-- The indexed document of course `i` for a given suite. -/
def buildCourse (suite : List RunId) (i : Nat) : Course :=
  match courseAttrs i with
  | (n, cats, orgs) =>
    ⟨n, cats, orgs, List.insertionSort EndDescRel (((suite.drop (2 * i)).take 2).map runOf)⟩

/-- The four indexed courses of a suite, with their ids. -/
def buildCourses (suite : List RunId) : List (Nat × Course) :=
  (List.range 4).map (fun i => (i, buildCourse suite i))

/-- The four indexed courses of a suite, without ids. -/
def coursesList (suite : List RunId) : List Course :=
  (buildCourses suite).map Prod.snd

/-- A filter context (spec §3): accepted values per dimension, OR within a
dimension; an empty list means the dimension is not filtered.  `new` is the
`new=new` drilldown flag. -/
structure Filters where
  availability : List Availability
  languages : List Lang
  categories : List Nat
  organizations : List Nat
  new : Bool
  deriving DecidableEq, Repr

/-- The empty filter context (a match-all query). -/
def matchAll : Filters := ⟨[], [], [], [], false⟩

/-- Modelled from the spec: the run-level filter predicate.  The
availability and languages dimensions live on the nested runs and their
filters are combined inside one nested query, so one and the same run must
satisfy both (the implementation is not among the sources; this conjunction
shape is pinned by the expected outputs of
`test_query_courses_course_runs_filter_composed` and the facet tests). -/
def runLevelPred (f : Filters) (now : Int) (r : CourseRun) : Bool :=
  (f.availability.isEmpty || f.availability.any (runMatchesAvail now r)) &&
  (f.languages.isEmpty || f.languages.any (fun l => r.languages.contains l))

/-- Course-level dimensions of a filter context: categories, organizations
and the `new` flag (any-value OR within each dimension). -/
def courseLevelOk (f : Filters) (c : Course) : Bool :=
  (f.categories.isEmpty || f.categories.any (fun v => c.categories.contains v)) &&
  (f.organizations.isEmpty || f.organizations.any (fun v => c.organizations.contains v)) &&
  (!f.new || c.is_new)

/-- Modelled from the spec: whether a course matches a filter context
(spec §4.4 with the nested-run conjunction above): some single run
satisfies all active run-level dimensions, and the course satisfies every
active course-level dimension. -/
def courseMatches (f : Filters) (now : Int) (c : Course) : Bool :=
  c.runs.any (runLevelPred f now) && courseLevelOk f c

/-- Modelled from the spec: the per-run sort key under a filter context
(spec §4.2, §4.6): only runs satisfying the run-level filters enter the
ranking; under a pure `availability=open` filter runs rank by
`enrollment_end` ascending regardless of timing state, otherwise by the
default four-priority rank key. -/
def sortRunKey (f : Filters) (now : Int) (r : CourseRun) : Option (Nat × Int) :=
  if runLevelPred f now r then
    if f.availability = [.«open»] then some (0, r.enrollment_end)
    else some (rank_key now r)
  else none

/-- Minimum of two optional rank keys (`none` = no candidate). -/
def optMinKey : Option (Nat × Int) → Option (Nat × Int) → Option (Nat × Int)
  | none, b => b
  | some a, none => some a
  | some a, some b => if keyLe a b then some a else some b

/-- Modelled from the spec: the representative-selector reduction
(spec §4.3, design note §9): a course's sort key is the minimum rank key
over its runs admitted by the filter context, `none` when no run is
admitted. -/
def course_sort_key (f : Filters) (now : Int) (rs : List CourseRun) : Option (Nat × Int) :=
  rs.foldr (fun r acc => optMinKey (sortRunKey f now r) acc) none

/-- Comparison of optional course sort keys (`none` never survives the
match filter, ordered last for definiteness). -/
def optKeyLe : Option (Nat × Int) → Option (Nat × Int) → Bool
  | none, none => true
  | none, some _ => false
  | some _, none => true
  | some a, some b => keyLe a b

/-- Ascending order of courses by their sort key under a filter context. -/
def CourseRel (f : Filters) (now : Int) (a b : Nat × Course) : Prop :=
  optKeyLe (course_sort_key f now a.2.runs) (course_sort_key f now b.2.runs) = true

instance (f : Filters) (now : Int) : DecidableRel (CourseRel f now) :=
  fun _ _ => inferInstanceAs (Decidable (_ = true))

/-- Modelled from the spec: the search pipeline (spec §6): keep the courses
matching the filter context and return their ids ordered by ascending
course sort key. -/
def search (f : Filters) (suite : List RunId) : List Nat :=
  (List.insertionSort (CourseRel f 0)
    ((buildCourses suite).filter (fun p => courseMatches f 0 p.2))).map Prod.fst

/-- Python's `min` over a nonempty list (0 on the empty list, which the
caller never passes). -/
def pyMin : List Nat → Nat
  | [] => 0
  | x :: xs => xs.foldl Nat.min x

/-- Sort key of `get_expected_courses`: the minimum position, in the given
run-id list, of the course's runs that appear in it. -/
def expectedKey (ids : List RunId) (o : Nat × List RunId) : Nat :=
  pyMin ((o.2.filter (fun i => ids.contains i)).map (fun i => ids.findIdx (fun j => j == i)))

/-- `get_expected_courses` of the test module: keep the courses owning at
least one of the given run ids and order them by the ranking the run-id
list encodes. -/
def get_expected_courses (cd : List (Nat × List RunId)) (ids : List RunId) : List Nat :=
  (List.insertionSort (fun a b => expectedKey ids a ≤ expectedKey ids b)
    (cd.filter (fun o => o.2.any (fun i => ids.contains i)))).map Prod.fst

/-- The fixed suite of `test_query_courses_match_all`. -/
def suite1 : List RunId := [.A, .D, .G, .F, .B, .H, .C, .E]

/-- The fixed suite of the grouped-runs and facet tests. -/
def suite2 : List RunId := [.A, .B, .G, .C, .D, .H, .F, .E]

/-- A suite pairing run A (ongoing, French) with run C (coming soon,
English) on course 0. -/
def suite3 : List RunId := [.A, .C, .B, .H, .D, .G, .F, .E]

/-- The `availability=open` filter context. -/
def fOpen : Filters := ⟨[.«open»], [], [], [], false⟩

/-- The `availability=ongoing` filter context. -/
def fOngoing : Filters := ⟨[.ongoing], [], [], [], false⟩

/-- The `availability=coming_soon` filter context. -/
def fComingSoon : Filters := ⟨[.coming_soon], [], [], [], false⟩

/-- The `availability=archived` filter context. -/
def fArchived : Filters := ⟨[.archived], [], [], [], false⟩

/-- The `languages=fr` filter context. -/
def fFr : Filters := ⟨[], [.fr], [], [], false⟩

/-- The `availability=ongoing&languages=en` filter context. -/
def fOngoingEn : Filters := ⟨[.ongoing], [.en], [], [], false⟩

/-- The four fixed candidate values of the `availability` facet, in their
declaration order (spec §4.5). -/
def availCandidates : List Availability := [.«open», .coming_soon, .ongoing, .archived]

/-- The candidate values of the `languages` facet in the fixture universe
(the test's `ALL_LANGUAGES_DICT`, the union of the fixture runs' languages). -/
def langCandidates : List Lang := [.de, .en, .fr]

/-- The candidate values of the `categories` facet attached to the fixture
courses. -/
def catCandidates : List Nat := [1, 2, 3, 4, 5]

/-- Modelled from the spec: facet count for one `availability` value
(spec §4.5): the availability dimension's own filter is excluded (sticky
facets); an active languages filter, living on the same nested runs, must
be satisfied by the same run as the counted value; course-level dimensions
apply at course level. -/
def availCount (f : Filters) (now : Int) (cs : List Course) (v : Availability) : Nat :=
  (cs.filter (fun c => courseLevelOk f c &&
     c.runs.any (fun r => runMatchesAvail now r v &&
       (f.languages.isEmpty || f.languages.any (fun l => r.languages.contains l))))).length

/-- Modelled from the spec: facet count for one `languages` value
(spec §4.5): the languages dimension's own filter is excluded; an active
availability filter must be satisfied by the same run as the counted
language; course-level dimensions apply at course level. -/
def langCount (f : Filters) (now : Int) (cs : List Course) (l : Lang) : Nat :=
  (cs.filter (fun c => courseLevelOk f c &&
     c.runs.any (fun r => r.languages.contains l &&
       (f.availability.isEmpty || f.availability.any (runMatchesAvail now r))))).length

/-- Modelled from the spec: facet count for one `categories` value
(spec §4.5): the categories dimension's own filter is excluded; all other
dimensions apply (run-level ones through the single nested predicate). -/
def catCount (f : Filters) (now : Int) (cs : List Course) (v : Nat) : Nat :=
  (cs.filter (fun c => c.categories.contains v &&
     (f.organizations.isEmpty || f.organizations.any (fun o => c.organizations.contains o)) &&
     (!f.new || c.is_new) &&
     c.runs.any (runLevelPred f now))).length

/-- Facet entry order for `categories`: descending count, then ascending
value. -/
def CatRel (a b : Nat × Nat) : Prop :=
  (decide (b.2 < a.2) || (decide (a.2 = b.2) && decide (a.1 ≤ b.1))) = true

instance : DecidableRel CatRel := fun _ _ => inferInstanceAs (Decidable (_ = true))

/-- Facet entry order for `languages`: descending count, then ascending
language code. -/
def LangRel (a b : Lang × Nat) : Prop :=
  (decide (b.2 < a.2) || (decide (a.2 = b.2) && decide (a.1.val ≤ b.1.val))) = true

instance : DecidableRel LangRel := fun _ _ => inferInstanceAs (Decidable (_ = true))

/-- Modelled from the spec: the `availability` facet of a response: the
four fixed candidates with their counts, in declaration order, zero-count
values omitted (omission and order pinned by the expected responses of the
facet tests). -/
def availabilityFacet (f : Filters) (suite : List RunId) : List (Availability × Nat) :=
  (availCandidates.map (fun v => (v, availCount f 0 (coursesList suite) v))).filter
    (fun p => p.2 != 0)

/-- Modelled from the spec: the `languages` facet of a response: candidate
languages with their counts, zero-count values omitted, ordered by
descending count then ascending code. -/
def languagesFacet (f : Filters) (suite : List RunId) : List (Lang × Nat) :=
  List.insertionSort LangRel
    ((langCandidates.map (fun l => (l, langCount f 0 (coursesList suite) l))).filter
      (fun p => p.2 != 0))

/-- Modelled from the spec: the `categories` facet of a response: candidate
categories with their counts, zero-count values omitted, ordered by
descending count then ascending value. -/
def categoriesFacet (f : Filters) (suite : List RunId) : List (Nat × Nat) :=
  List.insertionSort CatRel
    ((catCandidates.map (fun v => (v, catCount f 0 (coursesList suite) v))).filter
      (fun p => p.2 != 0))

/-- The candidate values of the `organizations` facet attached to the
fixture courses. -/
def orgCandidates : List Nat := [11, 12, 13, 14, 15]

/-- Modelled from the spec: facet count for one `organizations` value
(spec §4.5): the organizations dimension's own filter is excluded; all
other dimensions apply (run-level ones through the single nested
predicate). -/
def orgCount (f : Filters) (now : Int) (cs : List Course) (v : Nat) : Nat :=
  (cs.filter (fun c => c.organizations.contains v &&
     (f.categories.isEmpty || f.categories.any (fun o => c.categories.contains o)) &&
     (!f.new || c.is_new) &&
     c.runs.any (runLevelPred f now))).length

/-- Modelled from the spec: the `organizations` facet of a response:
candidate organizations with their counts, zero-count values omitted,
ordered by descending count then ascending value. -/
def organizationsFacet (f : Filters) (suite : List RunId) : List (Nat × Nat) :=
  List.insertionSort CatRel
    ((orgCandidates.map (fun v => (v, orgCount f 0 (coursesList suite) v))).filter
      (fun p => p.2 != 0))

/-- Follows the spec's words (C7, spec §4.4): course-level matching where
each run-level dimension is satisfied by ANY run independently, so the
availability and languages filters may be satisfied by two different runs.
Stated for comparison with `courseMatches`. -/
def spec_courseMatches (f : Filters) (now : Int) (c : Course) : Bool :=
  (f.availability.isEmpty ||
     c.runs.any (fun r => f.availability.any (runMatchesAvail now r))) &&
  (f.languages.isEmpty ||
     c.runs.any (fun r => f.languages.any (fun l => r.languages.contains l))) &&
  courseLevelOk f c

/-- Follows the spec's words (C6, spec §4.5): facet count for one
`availability` value as `|{course : course matches the other filters
(per-dimension, any-run) and has some run with the counted value}|`, the
conjunction across dimensions taken at course level.  Stated for
comparison with `availCount`. -/
def spec_availCount (f : Filters) (now : Int) (cs : List Course) (v : Availability) : Nat :=
  (cs.filter (fun c =>
     spec_courseMatches ⟨[], f.languages, f.categories, f.organizations, f.new⟩ now c &&
     c.runs.any (fun r => runMatchesAvail now r v))).length

/-- C1: at every instant, every run is classified into exactly one of the
three timing states, `coming_soon` iff `now < start`, `ongoing` iff
`start ≤ now ≤ end`, `archived` iff `now > end`, with both interval
boundaries inclusive; the classification is total. -/
theorem classify_partition (now : Int) (r : CourseRun) (hr : r.start ≤ r.«end») :
    ((classify now r).1 = .coming_soon ↔ now < r.start) ∧
    ((classify now r).1 = .ongoing ↔ r.start ≤ now ∧ now ≤ r.«end») ∧
    ((classify now r).1 = .archived ↔ r.«end» < now) := by
  unfold classify timing_state
  by_cases h1 : now < r.start
  · simp [h1]
    omega
  · by_cases h2 : now ≤ r.«end» <;> simp [h1, h2] <;> omega

/-- Concrete instantiation of `classify_partition` at the fixture run A
and the reference instant. -/
theorem classify_partition_witness :
    (runOf .A).start ≤ (runOf .A).«end» ∧
    (((classify 0 (runOf .A)).1 = .coming_soon ↔ (0 : Int) < (runOf .A).start) ∧
     ((classify 0 (runOf .A)).1 = .ongoing ↔
        (runOf .A).start ≤ 0 ∧ (0 : Int) ≤ (runOf .A).«end») ∧
     ((classify 0 (runOf .A)).1 = .archived ↔ (runOf .A).«end» < 0)) :=
  ⟨by decide, classify_partition 0 (runOf .A) (by decide)⟩

/-- C2: at the reference instant, the eight fixture runs classify exactly
as the tests expect: enrollment-open = {A, B, C}, ongoing = {A, B, E, F},
coming soon = {C, D}, archived = {G, H}. -/
theorem fixture_classification :
    allRunIds.filter (fun i => enrollment_open 0 (runOf i)) = [.A, .B, .C] ∧
    allRunIds.filter (fun i => decide (timing_state 0 (runOf i) = .ongoing)) =
      [.A, .B, .E, .F] ∧
    allRunIds.filter (fun i => decide (timing_state 0 (runOf i) = .coming_soon)) =
      [.C, .D] ∧
    allRunIds.filter (fun i => decide (timing_state 0 (runOf i) = .archived)) =
      [.G, .H] := by
  decide
























/-- Course sort key over a list of fixture run ids. -/
def foldKeys (kf : RunId → Option (Nat × Int)) (l : List RunId) : Option (Nat × Int) :=
  l.foldr (fun i acc => optMinKey (kf i) acc) none

theorem foldKeys_cons (kf : RunId → Option (Nat × Int)) (x : RunId) (t : List RunId) :
    foldKeys kf (x :: t) = optMinKey (kf x) (foldKeys kf t) := rfl

theorem course_sort_key_map (f : Filters) (now : Int) (l : List RunId) :
    course_sort_key f now (l.map runOf) =
      foldKeys (fun i => sortRunKey f now (runOf i)) l := by
  simp [course_sort_key, foldKeys, List.foldr_map]

/-- `v` is no worse than an optional candidate key. -/
def keyDom (v : Nat × Int) : Option (Nat × Int) → Bool
  | none => true
  | some w => keyLe v w

/-- `v` is strictly better than an optional candidate key. -/
def keyStrict (v : Nat × Int) : Option (Nat × Int) → Bool
  | none => true
  | some w => !(keyLe w v)

theorem foldKeys_dom (kf : RunId → Option (Nat × Int)) (v : Nat × Int) :
    ∀ l : List RunId, (∀ i ∈ l, keyDom v (kf i) = true) →
      keyDom v (foldKeys kf l) = true := by
  intro l
  induction l with
  | nil => intro _; rfl
  | cons x t ih =>
    intro h
    rw [foldKeys_cons]
    have hx := h x (List.mem_cons_self x t)
    have ht := ih (fun i hi => h i (List.mem_cons_of_mem x hi))
    cases hkx : kf x with
    | none => simpa [optMinKey] using ht
    | some w =>
      rw [hkx] at hx
      cases hft : foldKeys kf t with
      | none => simpa [optMinKey] using hx
      | some u =>
        rw [hft] at ht
        simp only [keyDom] at hx ht ⊢
        simp only [optMinKey]
        by_cases hwu : keyLe w u = true
        · simp [hwu, keyDom]; exact hx
        · simp [hwu, keyDom]; exact ht

theorem foldKeys_min (kf : RunId → Option (Nat × Int)) (v : Nat × Int) (a : RunId)
    (ha : kf a = some v) :
    ∀ l : List RunId, a ∈ l →
      (∀ i ∈ l, keyDom v (kf i) = true) →
      (∀ i ∈ l, i ≠ a → keyStrict v (kf i) = true) →
      foldKeys kf l = some v := by
  intro l
  induction l with
  | nil => intro h; cases h
  | cons x t ih =>
    intro hmem hdom hstrict
    rw [foldKeys_cons]
    by_cases hx : x = a
    · subst hx
      rw [ha]
      have hd := foldKeys_dom kf v t (fun i hi => hdom i (List.mem_cons_of_mem x hi))
      cases hft : foldKeys kf t with
      | none => rfl
      | some u =>
        rw [hft] at hd
        simp only [keyDom] at hd
        simp [optMinKey, hd]
    · have hmem' : a ∈ t := by
        rcases List.mem_cons.mp hmem with h | h
        · exact absurd h.symm hx
        · exact h
      have ht := ih hmem' (fun i hi => hdom i (List.mem_cons_of_mem x hi))
        (fun i hi hne => hstrict i (List.mem_cons_of_mem x hi) hne)
      rw [ht]
      cases hkx : kf x with
      | none => rfl
      | some w =>
        have hs := hstrict x (List.mem_cons_self x t) hx
        rw [hkx] at hs
        simp only [keyStrict, Bool.not_eq_true'] at hs
        simp [optMinKey, hs]

/-- C3: with no filter and no sort dimension, the four courses pairing the
runs (A,D), (G,F), (B,H), (C,E) come back in the order (A,D), (B,H),
(C,E), (G,F) — ids [0, 2, 3, 1] — which is the ascending order of the
rank keys of each course's best run under the default four-priority
comparator; the eight runs' individual keys realize the priority table. -/
theorem default_ranking_match_all :
    search matchAll suite1 = [0, 2, 3, 1] ∧
    course_sort_key matchAll 0 (buildCourse suite1 0).runs = some (1, 5) ∧
    course_sort_key matchAll 0 (buildCourse suite1 2).runs = some (1, 15) ∧
    course_sort_key matchAll 0 (buildCourse suite1 3).runs = some (2, 15) ∧
    course_sort_key matchAll 0 (buildCourse suite1 1).runs = some (3, 45) ∧
    keyLt (1, 5) (1, 15) = true ∧ keyLt (1, 15) (2, 15) = true ∧
    keyLt (2, 15) (3, 45) = true ∧
    rank_key 0 (runOf .A) = (1, 5) ∧ rank_key 0 (runOf .B) = (1, 15) ∧
    rank_key 0 (runOf .C) = (2, 15) ∧ rank_key 0 (runOf .D) = (2, 45) ∧
    rank_key 0 (runOf .E) = (3, 30) ∧ rank_key 0 (runOf .F) = (3, 45) ∧
    rank_key 0 (runOf .G) = (4, 15) ∧ rank_key 0 (runOf .H) = (4, 30) := by
  decide

/-- C4: under an availability filter, a course's sort key is computed from
its filter-satisfying runs only: whatever the assignment of fixture runs to
courses, under `availability=open` a course holding A keys at
enrollment_end +5, one holding B (but not A) at +15, one holding C (but
neither A nor B) at +30, so they order A-course, B-course, C-course; under
`availability=archived` a course holding G keys at 15 (= negated end -15)
and one holding H but not G at 30, so G-course precedes H-course; on the
fixed suite the full query results match the test's expected orders. -/
theorem filtered_ranking (l1 l2 l3 g1 g2 : List RunId)
    (h1 : RunId.A ∈ l1) (h2 : RunId.B ∈ l2) (h2' : RunId.A ∉ l2)
    (h3 : RunId.C ∈ l3) (h3' : RunId.A ∉ l3) (h3'' : RunId.B ∉ l3)
    (h4 : RunId.G ∈ g1) (h5 : RunId.H ∈ g2) (h5' : RunId.G ∉ g2) :
    course_sort_key fOpen 0 (l1.map runOf) = some (0, 5) ∧
    course_sort_key fOpen 0 (l2.map runOf) = some (0, 15) ∧
    course_sort_key fOpen 0 (l3.map runOf) = some (0, 30) ∧
    course_sort_key fArchived 0 (g1.map runOf) = some (4, 15) ∧
    course_sort_key fArchived 0 (g2.map runOf) = some (4, 30) ∧
    keyLt (0, 5) (0, 15) = true ∧ keyLt (0, 15) (0, 30) = true ∧
    keyLt (4, 15) (4, 30) = true ∧
    search fOpen suite2 = [0, 1] ∧
    search fOpen suite2 = get_expected_courses (coursesDefinition suite2) [.A, .B, .C] ∧
    search fArchived suite2 = [1, 2] ∧
    search fArchived suite2 = get_expected_courses (coursesDefinition suite2) [.G, .H] := by
  have hdomA : ∀ j : RunId, keyDom (0, 5) (sortRunKey fOpen 0 (runOf j)) = true := by
    decide
  have hstrA : ∀ j : RunId, j ≠ .A →
      keyStrict (0, 5) (sortRunKey fOpen 0 (runOf j)) = true := by decide
  have hdomB : ∀ j : RunId, j ≠ .A →
      keyDom (0, 15) (sortRunKey fOpen 0 (runOf j)) = true := by decide
  have hstrB : ∀ j : RunId, j ≠ .A → j ≠ .B →
      keyStrict (0, 15) (sortRunKey fOpen 0 (runOf j)) = true := by decide
  have hdomC : ∀ j : RunId, j ≠ .A → j ≠ .B →
      keyDom (0, 30) (sortRunKey fOpen 0 (runOf j)) = true := by decide
  have hstrC : ∀ j : RunId, j ≠ .A → j ≠ .B → j ≠ .C →
      keyStrict (0, 30) (sortRunKey fOpen 0 (runOf j)) = true := by decide
  have hdomG : ∀ j : RunId, keyDom (4, 15) (sortRunKey fArchived 0 (runOf j)) = true := by
    decide
  have hstrG : ∀ j : RunId, j ≠ .G →
      keyStrict (4, 15) (sortRunKey fArchived 0 (runOf j)) = true := by decide
  have hdomH : ∀ j : RunId, j ≠ .G →
      keyDom (4, 30) (sortRunKey fArchived 0 (runOf j)) = true := by decide
  have hstrH : ∀ j : RunId, j ≠ .G → j ≠ .H →
      keyStrict (4, 30) (sortRunKey fArchived 0 (runOf j)) = true := by decide
  refine ⟨?_, ?_, ?_, ?_, ?_, by decide, by decide, by decide,
    by decide, by decide, by decide, by decide⟩
  · rw [course_sort_key_map]
    exact foldKeys_min _ _ .A (by decide) l1 h1 (fun i _ => hdomA i)
      (fun i _ hne => hstrA i hne)
  · rw [course_sort_key_map]
    exact foldKeys_min _ _ .B (by decide) l2 h2
      (fun i hi => hdomB i (fun h => h2' (h ▸ hi)))
      (fun i hi hne => hstrB i (fun h => h2' (h ▸ hi)) hne)
  · rw [course_sort_key_map]
    exact foldKeys_min _ _ .C (by decide) l3 h3
      (fun i hi => hdomC i (fun h => h3' (h ▸ hi)) (fun h => h3'' (h ▸ hi)))
      (fun i hi hne => hstrC i (fun h => h3' (h ▸ hi)) (fun h => h3'' (h ▸ hi)) hne)
  · rw [course_sort_key_map]
    exact foldKeys_min _ _ .G (by decide) g1 h4 (fun i _ => hdomG i)
      (fun i _ hne => hstrG i hne)
  · rw [course_sort_key_map]
    exact foldKeys_min _ _ .H (by decide) g2 h5
      (fun i hi => hdomH i (fun h => h5' (h ▸ hi)))
      (fun i hi hne => hstrH i (fun h => h5' (h ▸ hi)) hne)

/-- Concrete instantiation of `filtered_ranking` at the run pairs of the
default ranking scenario. -/
theorem filtered_ranking_witness :
    (RunId.A ∈ ([.A, .D] : List RunId) ∧ RunId.B ∈ ([.B, .H] : List RunId) ∧
     RunId.A ∉ ([.B, .H] : List RunId) ∧ RunId.C ∈ ([.C, .E] : List RunId) ∧
     RunId.A ∉ ([.C, .E] : List RunId) ∧ RunId.B ∉ ([.C, .E] : List RunId) ∧
     RunId.G ∈ ([.G, .F] : List RunId) ∧ RunId.H ∈ ([.B, .H] : List RunId) ∧
     RunId.G ∉ ([.B, .H] : List RunId)) ∧
    (course_sort_key fOpen 0 (([.A, .D] : List RunId).map runOf) = some (0, 5) ∧
     course_sort_key fOpen 0 (([.B, .H] : List RunId).map runOf) = some (0, 15) ∧
     course_sort_key fOpen 0 (([.C, .E] : List RunId).map runOf) = some (0, 30) ∧
     course_sort_key fArchived 0 (([.G, .F] : List RunId).map runOf) = some (4, 15) ∧
     course_sort_key fArchived 0 (([.B, .H] : List RunId).map runOf) = some (4, 30) ∧
     keyLt (0, 5) (0, 15) = true ∧ keyLt (0, 15) (0, 30) = true ∧
     keyLt (4, 15) (4, 30) = true ∧
     search fOpen suite2 = [0, 1] ∧
     search fOpen suite2 = get_expected_courses (coursesDefinition suite2) [.A, .B, .C] ∧
     search fArchived suite2 = [1, 2] ∧
     search fArchived suite2 = get_expected_courses (coursesDefinition suite2) [.G, .H]) :=
  ⟨⟨by decide, by decide, by decide, by decide, by decide, by decide, by decide,
    by decide, by decide⟩,
   filtered_ranking [.A, .D] [.B, .H] [.C, .E] [.G, .F] [.B, .H]
     (by decide) (by decide) (by decide) (by decide) (by decide) (by decide)
     (by decide) (by decide) (by decide)⟩

/-- C5: sticky facets: the counts for a dimension never depend on that
dimension's own filter (in particular they equal the unfiltered counts when
it is the only active filter); on the fixed suite, filtering
`availability=open` leaves the availability buckets at the match-all values
while narrowing languages and categories, and filtering `languages=fr`
leaves the languages buckets at the match-all values while narrowing
availability and categories. -/
theorem sticky_facets :
    (∀ (f : Filters) (suite : List RunId),
      availabilityFacet f suite =
        availabilityFacet ⟨[], f.languages, f.categories, f.organizations, f.new⟩ suite) ∧
    (∀ (f : Filters) (suite : List RunId),
      languagesFacet f suite =
        languagesFacet ⟨f.availability, [], f.categories, f.organizations, f.new⟩ suite) ∧
    (∀ (f : Filters) (suite : List RunId),
      categoriesFacet f suite =
        categoriesFacet ⟨f.availability, f.languages, [], f.organizations, f.new⟩ suite) ∧
    availabilityFacet fOpen suite2 = availabilityFacet matchAll suite2 ∧
    availabilityFacet matchAll suite2 =
      [(.«open», 2), (.coming_soon, 2), (.ongoing, 2), (.archived, 2)] ∧
    languagesFacet fOpen suite2 = [(.en, 2), (.fr, 1)] ∧
    languagesFacet matchAll suite2 = [(.en, 4), (.fr, 3), (.de, 1)] ∧
    categoriesFacet fOpen suite2 = [(3, 2), (1, 1), (2, 1), (5, 1)] ∧
    categoriesFacet matchAll suite2 = [(1, 2), (2, 2), (3, 2), (4, 2), (5, 2)] ∧
    languagesFacet fFr suite2 = languagesFacet matchAll suite2 ∧
    availabilityFacet fFr suite2 = [(.«open», 1), (.coming_soon, 1), (.ongoing, 2)] ∧
    categoriesFacet fFr suite2 = [(1, 2), (4, 2), (5, 2), (2, 1), (3, 1)] :=
  ⟨fun f _ => by obtain ⟨a, b, c, d, e⟩ := f; rfl,
   fun f _ => by obtain ⟨a, b, c, d, e⟩ := f; rfl,
   fun f _ => by obtain ⟨a, b, c, d, e⟩ := f; rfl,
   by decide, by decide, by decide, by decide, by decide, by decide,
   by decide, by decide, by decide⟩

/-- C6, counterexample: under `languages=fr` on the fixed suite, the
course owning runs D (French, coming soon) and H (English, archived)
satisfies the claim's course-level formula for the `archived` bucket (its
French match and its archived timing come from two different runs), so the
claim predicts count 1; the response — as its own cited test expects —
reports no `archived` bucket at all (count 0): the conjunction is taken
within a single run, not at course level. -/
theorem facet_count_not_course_level :
    spec_availCount fFr 0 (coursesList suite2) .archived = 1 ∧
    availCount fFr 0 (coursesList suite2) .archived = 0 ∧
    availabilityFacet fFr suite2 = [(.«open», 1), (.coming_soon, 1), (.ongoing, 2)] ∧
    spec_availCount fFr 0 (coursesList suite2) .archived ≠
      availCount fFr 0 (coursesList suite2) .archived := by
  refine ⟨by decide, by decide, by decide, by decide⟩

/-- C6 as amended: the reported availability facet count for value `v`
equals the number of courses that match all course-level filters and the
filters on dimensions other than availability, where an active languages
filter must be satisfied by the same run that carries the counted
availability value; the amended rule reproduces the cited tests' expected
counts. -/
theorem facet_count_same_run :
    (∀ (f : Filters) (cs : List Course) (v : Availability),
      availCount f 0 cs v =
        cs.countP (fun c => decide (courseLevelOk f c = true ∧
          ∃ r, r ∈ c.runs ∧ runMatchesAvail 0 r v = true ∧
            (f.languages = [] ∨ ∃ l, l ∈ f.languages ∧ l ∈ r.languages)))) ∧
    availabilityFacet fFr suite2 = [(.«open», 1), (.coming_soon, 1), (.ongoing, 2)] ∧
    availabilityFacet fOngoingEn suite2 =
      [(.«open», 2), (.coming_soon, 1), (.ongoing, 2), (.archived, 2)] ∧
    languagesFacet fOngoingEn suite2 = [(.en, 2), (.fr, 2)] ∧
    categoriesFacet fOngoingEn suite2 = [(1, 1), (2, 1), (3, 1), (4, 1), (5, 1)] := by
  refine ⟨?_, by decide, by decide, by decide, by decide⟩
  intro f cs v
  rw [availCount, List.countP_eq_length_filter]
  apply congrArg List.length
  apply List.filter_congr
  intro c _
  rw [Bool.eq_iff_iff]
  simp [List.any_eq_true, List.isEmpty_iff, List.elem_iff]

/-- C7, counterexample: searching `availability=ongoing&languages=en` on a
suite pairing run A (ongoing, French) with run C (coming soon, English) on
course 0: course 0 matches the claim's course-level semantics (ongoing via
A, English via C), yet the program's result — exactly the order the test's
own oracle `get_expected_courses` derives from the runs satisfying both
values at once, B and E — is [1, 3] and does not contain course 0. -/
theorem combined_filter_not_cross_run :
    spec_courseMatches fOngoingEn 0 (buildCourse suite3 0) = true ∧
    courseMatches fOngoingEn 0 (buildCourse suite3 0) = false ∧
    search fOngoingEn suite3 = [1, 3] ∧
    get_expected_courses (coursesDefinition suite3) [.B, .E] = [1, 3] ∧
    (0 : Nat) ∉ search fOngoingEn suite3 := by
  refine ⟨by decide, by decide, by decide, by decide, by decide⟩

/-- C7 as amended: a course is returned iff it satisfies every active
course-level dimension and owns a single run satisfying all the active
run-level dimensions together (some requested availability value and some
requested language on that same run); on the fixed suite the combined
query returns exactly the courses owning run B or E, in the test's
expected order. -/
theorem combined_filter_same_run :
    (∀ (f : Filters) (suite : List RunId) (i : Nat),
      i ∈ search f suite ↔
        ∃ c, (i, c) ∈ buildCourses suite ∧
          (∃ r, r ∈ c.runs ∧
            (f.availability = [] ∨ ∃ v, v ∈ f.availability ∧ runMatchesAvail 0 r v = true) ∧
            (f.languages = [] ∨ ∃ l, l ∈ f.languages ∧ l ∈ r.languages)) ∧
          courseLevelOk f c = true) ∧
    search fOngoingEn suite2 = [0, 3] ∧
    search fOngoingEn suite2 = get_expected_courses (coursesDefinition suite2) [.B, .E] := by
  refine ⟨?_, by decide, by decide⟩
  intro f suite i
  simp only [search, List.map, List.mem_map, List.mem_insertionSort, List.mem_filter,
    courseMatches, runLevelPred, Bool.and_eq_true, List.any_eq_true,
    Bool.or_eq_true, List.isEmpty_iff, decide_eq_true_eq, List.elem_iff]
  constructor
  · rintro ⟨⟨j, c⟩, ⟨hmem, ⟨r, hr, hav, hl⟩, hok⟩, hj⟩
    subst hj
    exact ⟨c, hmem, ⟨r, hr, hav, hl⟩, hok⟩
  · rintro ⟨c, hmem, ⟨r, hr, hav, hl⟩, hok⟩
    exact ⟨(i, c), ⟨hmem, ⟨r, hr, hav, hl⟩, hok⟩, rfl⟩

/-- C8, counterexample: under `languages=fr` on the fixed suite no course
has an archived French run, and the response's availability facet — the
value its own cited test expects — lists only three entries: the
`archived` candidate is omitted when its count is zero, not reported with
count 0. -/
theorem availability_zero_count_omitted :
    availabilityFacet fFr suite2 = [(.«open», 1), (.coming_soon, 1), (.ongoing, 2)] ∧
    availCount fFr 0 (coursesList suite2) .archived = 0 ∧
    ((availabilityFacet fFr suite2).map Prod.fst).contains .archived = false ∧
    (availabilityFacet fFr suite2).map Prod.fst ≠ availCandidates := by
  refine ⟨by decide, by decide, by decide, by decide⟩

/-- C8 as amended: the availability facet draws from exactly the four
fixed candidate values open, coming_soon, ongoing, archived, in that
order, and an entry `(v, n)` appears iff `n` is `v`'s count and `n` is
nonzero (zero-count candidates are omitted); on the match-all query all
four appear with their counts. -/
theorem availability_candidates_fixed :
    (∀ (f : Filters) (suite : List RunId),
      ((availabilityFacet f suite).map Prod.fst).Sublist availCandidates) ∧
    (∀ (f : Filters) (suite : List RunId) (v : Availability) (n : Nat),
      (v, n) ∈ availabilityFacet f suite ↔
        n = availCount f 0 (coursesList suite) v ∧ n ≠ 0) ∧
    availabilityFacet matchAll suite1 =
      [(.«open», 3), (.coming_soon, 2), (.ongoing, 4), (.archived, 2)] ∧
    availabilityFacet fFr suite2 = [(.«open», 1), (.coming_soon, 1), (.ongoing, 2)] := by
  refine ⟨?_, ?_, by decide, by decide⟩
  · intro f suite
    have h := (List.filter_sublist
      (availCandidates.map (fun v => (v, availCount f 0 (coursesList suite) v)))
      (p := fun p => p.2 != 0)).map Prod.fst
    simpa [List.map_map, Function.comp] using h
  · intro f suite v n
    constructor
    · intro h
      have h1 := List.mem_filter.mp h
      obtain ⟨u, _, heq⟩ := List.mem_map.mp h1.1
      injection heq with hu hc
      subst hu
      subst hc
      exact ⟨rfl, by simpa using h1.2⟩
    · rintro ⟨rfl, hne⟩
      apply List.mem_filter.mpr
      refine ⟨List.mem_map.mpr ⟨v, ?_, rfl⟩, by simpa using hne⟩
      cases v <;> simp [availCandidates]

/-- C9, counterexample: on the match-all query of the fixed suite the
availability facet reads (open, 3), (coming_soon, 2), (ongoing, 4),
(archived, 2) — the order its own cited test expects — whose count
sequence [3, 2, 4, 2] is not descending: the availability dimension is
returned in fixed declaration order, not ordered by count. -/
theorem availability_not_count_ordered :
    availabilityFacet matchAll suite1 =
      [(.«open», 3), (.coming_soon, 2), (.ongoing, 4), (.archived, 2)] ∧
    (availabilityFacet matchAll suite1).map Prod.snd = [3, 2, 4, 2] ∧
    ¬ List.Sorted (fun a b : Nat => b ≤ a)
      ((availabilityFacet matchAll suite1).map Prod.snd) := by
  refine ⟨by decide, by decide, by decide⟩

instance : IsTotal (Lang × Nat) LangRel :=
  ⟨by
    intro a b
    simp only [LangRel, Bool.or_eq_true, Bool.and_eq_true, decide_eq_true_eq]
    omega⟩

instance : IsTrans (Lang × Nat) LangRel :=
  ⟨by
    intro a b c
    simp only [LangRel, Bool.or_eq_true, Bool.and_eq_true, decide_eq_true_eq]
    omega⟩

instance : IsTotal (Nat × Nat) CatRel :=
  ⟨by
    intro a b
    simp only [CatRel, Bool.or_eq_true, Bool.and_eq_true, decide_eq_true_eq]
    omega⟩

instance : IsTrans (Nat × Nat) CatRel :=
  ⟨by
    intro a b c
    simp only [CatRel, Bool.or_eq_true, Bool.and_eq_true, decide_eq_true_eq]
    omega⟩

/-- C9 as amended: the terms-based dimensions (languages, categories,
organizations) are ordered by descending count with ties broken by
ascending value, for every query; the availability dimension is instead
returned in the fixed declaration order open, coming_soon, ongoing,
archived (restricted to its nonzero-count values); the match-all
responses realize both orders. -/
theorem facet_value_ordering :
    (∀ (f : Filters) (suite : List RunId),
      List.Sorted LangRel (languagesFacet f suite)) ∧
    (∀ (f : Filters) (suite : List RunId),
      List.Sorted CatRel (categoriesFacet f suite)) ∧
    (∀ (f : Filters) (suite : List RunId),
      List.Sorted CatRel (organizationsFacet f suite)) ∧
    (∀ (f : Filters) (suite : List RunId),
      ((availabilityFacet f suite).map Prod.fst).Sublist availCandidates) ∧
    languagesFacet matchAll suite1 = [(.en, 3), (.de, 2), (.fr, 2)] ∧
    categoriesFacet matchAll suite1 = [(1, 2), (2, 2), (3, 2), (4, 2), (5, 2)] ∧
    organizationsFacet matchAll suite1 =
      [(11, 2), (12, 2), (13, 2), (14, 2), (15, 2)] ∧
    availabilityFacet matchAll suite1 =
      [(.«open», 3), (.coming_soon, 2), (.ongoing, 4), (.archived, 2)] := by
  refine ⟨?_, ?_, ?_, ?_, by decide, by decide, by decide, by decide⟩
  · intro f suite
    exact List.sorted_insertionSort LangRel _
  · intro f suite
    exact List.sorted_insertionSort CatRel _
  · intro f suite
    exact List.sorted_insertionSort CatRel _
  · intro f suite
    have h := (List.filter_sublist
      (availCandidates.map (fun v => (v, availCount f 0 (coursesList suite) v)))
      (p := fun p => p.2 != 0)).map Prod.fst
    simpa [List.map_map, Function.comp] using h

/-- The Python exceptions involved in `get_release` of
`src/richie/settings.py`. -/
inductive PyExc
  | fileNotFoundError
  | jsonDecodeError
  | keyError
  | invalidGitRepository
  deriving DecidableEq, Repr

/-- The state of `version.json` at the project root, as the outcome of
`open` + `json.load` + `["commit"]` in `get_release`: the file may be
absent (`open` raises FileNotFoundError), hold malformed JSON
(`json.load` raises JSONDecodeError), parse but lack the "commit" key
(`["commit"]` raises KeyError), or yield a commit sha. -/
inductive VersionFile
  | absent
  | malformed
  | missingCommitKey
  | commit (sha : String)
  deriving DecidableEq, Repr

/-- The body of `get_release`'s first `try` block: read and parse
`version.json` and index its "commit" key. -/
def readVersionCommit : VersionFile → Except PyExc String
  | .absent => .error .fileNotFoundError
  | .malformed => .error .jsonDecodeError
  | .missingCommitKey => .error .keyError
  | .commit sha => .ok sha

/-- The state of the project directory as a git repository. -/
inductive GitRepo
  | invalid
  | headSha (sha : String)
  deriving DecidableEq, Repr

/-- `raven.fetch_git_sha` on the project directory: the HEAD sha, or
`InvalidGitRepository`. -/
def fetch_git_sha : GitRepo → Except PyExc String
  | .invalid => .error .invalidGitRepository
  | .headSha sha => .ok sha

/-- `get_release` of `src/richie/settings.py`: try `version.json` first,
catching only FileNotFoundError; then the git repository, catching only
InvalidGitRepository; default to "NA".  Any other exception propagates. -/
def get_release (v : VersionFile) (g : GitRepo) : Except PyExc String :=
  match readVersionCommit v with
  | .ok sha => .ok sha
  | .error e =>
    if e = .fileNotFoundError then
      match fetch_git_sha g with
      | .ok sha => .ok sha
      | .error e2 => if e2 = .invalidGitRepository then .ok "NA" else .error e2
    else .error e

/-- C10: `get_release` returns the "commit" field of `version.json` when
the file exists and is well-formed; on FileNotFoundError it falls back to
the git HEAD sha; on InvalidGitRepository it falls back to "NA"; but a
present `version.json` that is malformed JSON or lacks the "commit" key
raises (JSONDecodeError / KeyError) instead of falling through. -/
theorem get_release_strategies :
    (∀ (sha : String) (g : GitRepo), get_release (.commit sha) g = .ok sha) ∧
    (∀ sha : String, get_release .absent (.headSha sha) = .ok sha) ∧
    get_release .absent .invalid = .ok "NA" ∧
    (∀ g : GitRepo, get_release .malformed g = .error .jsonDecodeError) ∧
    (∀ g : GitRepo, get_release .missingCommitKey g = .error .keyError) :=
  ⟨fun _ _ => rfl, fun _ => rfl, rfl, fun _ => rfl, fun _ => rfl⟩

end Richie
